import Mathlib

/-!
Shallow embedding of `src/main.py`, a FastAPI CRUD service for the `Berita`
(news item) model backed by a single SQL table.

Modelling choices, each matching the source:

* The store (`berita` table) is a `List Berita`; SQLite assigns the integer
  primary key of a freshly inserted row as one more than the largest id in
  use (`nextId`), and `1` on an empty table.
* `db.query(Berita).filter(Berita.id == berita_id).first()` is
  `List.find? (fun b => b.id == berita_id)`.
* Pydantic validation of the request body (`BeritaBase`) is the predicate
  `BeritaBase.Valid`: `judul` 1–255 chars, `isi_berita` non-empty, `tanggal`
  a real calendar date (Python `datetime.date` range), `kategori` 1–100
  chars.  Lengths count characters exactly as Python `len`; no trimming.
* The FastAPI request pipeline for a mutating endpoint: the
  `require_api_key` dependency is solved before the body is parsed.  A
  missing required header (`Header(...)`) is a request-validation error,
  HTTP 422; a present header whose value differs from `API_KEY` makes
  `require_api_key` raise HTTP 401 before body validation; otherwise an
  invalid body is rejected with HTTP 422 before the handler runs.
* Handler results are `Except Nat (Nat × α)`: `.error status` for an
  `HTTPException`, `.ok (status, body)` for a success response.  Every
  endpoint also returns the store it leaves behind.
-/

def API_KEY : String := "supersecret"

/-- A calendar date as carried by the `tanggal` field (Python `datetime.date`). -/
structure DateYMD where
  year : Int
  month : Nat
  day : Nat
deriving DecidableEq, Repr

def isLeapYear (y : Int) : Bool :=
  (y % 4 == 0 && y % 100 != 0) || (y % 400 == 0)

def daysInMonth (y : Int) (m : Nat) : Nat :=
  if m = 2 then (if isLeapYear y then 29 else 28)
  else if m = 4 ∨ m = 6 ∨ m = 9 ∨ m = 11 then 30
  else 31

/-- The range check `datetime.date` performs on construction / parsing. -/
def DateYMD.Valid (d : DateYMD) : Prop :=
  1 ≤ d.year ∧ d.year ≤ 9999 ∧ 1 ≤ d.month ∧ d.month ≤ 12 ∧
    1 ≤ d.day ∧ d.day ≤ daysInMonth d.year d.month

instance (d : DateYMD) : Decidable d.Valid := by
  unfold DateYMD.Valid
  exact inferInstance

/-- The SQLAlchemy `Berita` row: integer primary key plus the four data columns. -/
structure Berita where
  id : Int
  judul : String
  isi_berita : String
  tanggal : DateYMD
  kategori : String
deriving DecidableEq, Repr

/-- The pydantic request-body schema shared by `BeritaCreate` and `BeritaUpdate`. -/
structure BeritaBase where
  judul : String
  isi_berita : String
  tanggal : DateYMD
  kategori : String
deriving DecidableEq, Repr

/-- Pydantic field constraints on `BeritaBase`:
`judul` min 1 / max 255, `isi_berita` min 1, `tanggal` a calendar date,
`kategori` min 1 / max 100. -/
def BeritaBase.Valid (p : BeritaBase) : Prop :=
  1 ≤ p.judul.length ∧ p.judul.length ≤ 255 ∧ 1 ≤ p.isi_berita.length ∧
    p.tanggal.Valid ∧ 1 ≤ p.kategori.length ∧ p.kategori.length ≤ 100

instance (p : BeritaBase) : Decidable p.Valid := by
  unfold BeritaBase.Valid
  exact inferInstance

abbrev Store := List Berita

/-- Largest id in use (0 on an empty table). -/
def maxId (db : Store) : Int :=
  (db.map (·.id)).foldr max 0

/-- The primary key SQLite assigns to the next inserted row. -/
def nextId (db : Store) : Int :=
  maxId db + 1

/-- `require_api_key` from the source: a present header that differs from
`API_KEY` raises HTTP 401. -/
def require_api_key (x_api_key : String) : Except Nat Unit :=
  if x_api_key ≠ API_KEY then .error 401 else .ok ()

/-- FastAPI solving of the `X-API-Key: str = Header(...)` parameter plus the
`require_api_key` call: a missing required header is a request-validation
error (HTTP 422); otherwise `require_api_key` runs on the value. -/
def run_auth (x_api_key : Option String) : Except Nat Unit :=
  match x_api_key with
  | none => .error 422
  | some k => require_api_key k

/-- `setattr` loop of `update_berita`: overwrite the four data fields,
leaving `id` alone (the payload dict has no `id` key). -/
def setFields (berita_in : BeritaBase) (b : Berita) : Berita :=
  { b with judul := berita_in.judul, isi_berita := berita_in.isi_berita,
           tanggal := berita_in.tanggal, kategori := berita_in.kategori }

/-- In-place mutation of the first row matching the id, as done by
`first()` + `setattr` + `commit`. -/
def updateFirst (berita_id : Int) (berita_in : BeritaBase) : Store → Store
  | [] => []
  | b :: rest =>
    if b.id == berita_id then setFields berita_in b :: rest
    else b :: updateFirst berita_id berita_in rest

/-- Deletion of the first row matching the id, as done by `first()` +
`db.delete` + `commit`. -/
def deleteFirst (berita_id : Int) : Store → Store
  | [] => []
  | b :: rest => if b.id == berita_id then rest else b :: deleteFirst berita_id rest

/-- Handler `list_berita`: return every row. -/
def list_berita (db : Store) : List Berita :=
  db

/-- Handler `get_berita`: first row with the id, else HTTP 404. -/
def get_berita (berita_id : Int) (db : Store) : Except Nat Berita :=
  match db.find? (fun b => b.id == berita_id) with
  | none => .error 404
  | some b => .ok b

/-- Handler `create_berita`: insert a row built from the payload; the store
assigns the id.  Returns the refreshed row and the new store. -/
def create_berita (berita_in : BeritaBase) (db : Store) : Berita × Store :=
  let b : Berita :=
    { id := nextId db, judul := berita_in.judul, isi_berita := berita_in.isi_berita,
      tanggal := berita_in.tanggal, kategori := berita_in.kategori }
  (b, db ++ [b])

/-- Handler `update_berita`: 404 if the id is absent, otherwise overwrite the
four data fields of the matching row and return the refreshed row. -/
def update_berita (berita_id : Int) (berita_in : BeritaBase) (db : Store) :
    Except Nat Berita × Store :=
  match db.find? (fun b => b.id == berita_id) with
  | none => (.error 404, db)
  | some b => (.ok (setFields berita_in b), updateFirst berita_id berita_in db)

/-- Handler `delete_berita`: 404 if the id is absent, otherwise remove the
matching row. -/
def delete_berita (berita_id : Int) (db : Store) : Except Nat Unit × Store :=
  match db.find? (fun b => b.id == berita_id) with
  | none => (.error 404, db)
  | some _ => (.ok (), deleteFirst berita_id db)

/-- GET `/berita`: no auth, no validation, HTTP 200 with every row. -/
def list_endpoint (db : Store) : Except Nat (Nat × List Berita) :=
  .ok (200, list_berita db)

/-- GET `/berita/{berita_id}`: no auth, HTTP 200 with the row or 404. -/
def get_endpoint (berita_id : Int) (db : Store) : Except Nat (Nat × Berita) :=
  match get_berita berita_id db with
  | .error e => .error e
  | .ok b => .ok (200, b)

/-- POST `/berita`: auth dependency, then body validation, then the handler;
HTTP 201 on success. -/
def create_endpoint (x_api_key : Option String) (berita_in : BeritaBase) (db : Store) :
    Except Nat (Nat × Berita) × Store :=
  match run_auth x_api_key with
  | .error e => (.error e, db)
  | .ok _ =>
    if berita_in.Valid then
      (.ok (201, (create_berita berita_in db).1), (create_berita berita_in db).2)
    else (.error 422, db)

/-- PUT `/berita/{berita_id}`: auth dependency, then body validation, then the
handler; HTTP 200 on success. -/
def update_endpoint (x_api_key : Option String) (berita_id : Int) (berita_in : BeritaBase)
    (db : Store) : Except Nat (Nat × Berita) × Store :=
  match run_auth x_api_key with
  | .error e => (.error e, db)
  | .ok _ =>
    if berita_in.Valid then
      match update_berita berita_id berita_in db with
      | (.error e, db2) => (.error e, db2)
      | (.ok b, db2) => (.ok (200, b), db2)
    else (.error 422, db)

/-- DELETE `/berita/{berita_id}`: auth dependency, then the handler;
HTTP 204 with empty body on success. -/
def delete_endpoint (x_api_key : Option String) (berita_id : Int) (db : Store) :
    Except Nat (Nat × Unit) × Store :=
  match run_auth x_api_key with
  | .error e => (.error e, db)
  | .ok _ =>
    match delete_berita berita_id db with
    | (.error e, db2) => (.error e, db2)
    | (.ok _, db2) => (.ok (204, ()), db2)

/-- Store states reachable from the empty table through the HTTP surface
(reads do not change the store, so only the mutating endpoints appear). -/
inductive Reachable : Store → Prop where
  | empty : Reachable []
  | create (k : Option String) (p : BeritaBase) (s : Store) :
      Reachable s → Reachable (create_endpoint k p s).2
  | update (k : Option String) (i : Int) (p : BeritaBase) (s : Store) :
      Reachable s → Reachable (update_endpoint k i p s).2
  | delete (k : Option String) (i : Int) (s : Store) :
      Reachable s → Reachable (delete_endpoint k i s).2

def d0 : DateYMD := ⟨2024, 1, 1⟩

def p0 : BeritaBase := ⟨"A", "b", d0, "c"⟩

/-! ### Stepping lemmas for the authentication dependency -/

theorem run_auth_none : run_auth none = .error 422 := rfl

theorem run_auth_right : run_auth (some API_KEY) = .ok () := rfl

theorem run_auth_wrong (k : String) (h : k ≠ API_KEY) : run_auth (some k) = .error 401 := by
  simp only [run_auth, require_api_key, if_pos h]

/-! ### Stepping lemmas for the three mutating endpoints -/

theorem create_endpoint_no_key (p : BeritaBase) (db : Store) :
    create_endpoint none p db = (.error 422, db) := rfl

theorem create_endpoint_wrong_key (k : String) (p : BeritaBase) (db : Store) (h : k ≠ API_KEY) :
    create_endpoint (some k) p db = (.error 401, db) := by
  simp only [create_endpoint, run_auth_wrong k h]

theorem create_endpoint_invalid_body (p : BeritaBase) (db : Store) (h : ¬ p.Valid) :
    create_endpoint (some API_KEY) p db = (.error 422, db) := by
  simp only [create_endpoint, run_auth_right, if_neg h]

theorem create_endpoint_valid_body (p : BeritaBase) (db : Store) (h : p.Valid) :
    create_endpoint (some API_KEY) p db =
      (.ok (201, (create_berita p db).1), (create_berita p db).2) := by
  simp only [create_endpoint, run_auth_right, if_pos h]

theorem update_endpoint_no_key (i : Int) (p : BeritaBase) (db : Store) :
    update_endpoint none i p db = (.error 422, db) := rfl

theorem update_endpoint_wrong_key (k : String) (i : Int) (p : BeritaBase) (db : Store)
    (h : k ≠ API_KEY) : update_endpoint (some k) i p db = (.error 401, db) := by
  simp only [update_endpoint, run_auth_wrong k h]

theorem update_endpoint_invalid_body (i : Int) (p : BeritaBase) (db : Store) (h : ¬ p.Valid) :
    update_endpoint (some API_KEY) i p db = (.error 422, db) := by
  simp only [update_endpoint, run_auth_right, if_neg h]

theorem update_endpoint_absent_id (i : Int) (p : BeritaBase) (db : Store) (h : p.Valid)
    (hfind : db.find? (fun b => b.id == i) = none) :
    update_endpoint (some API_KEY) i p db = (.error 404, db) := by
  simp only [update_endpoint, run_auth_right, if_pos h, update_berita, hfind]

theorem update_endpoint_found (i : Int) (p : BeritaBase) (db : Store) (b : Berita) (h : p.Valid)
    (hfind : db.find? (fun b => b.id == i) = some b) :
    update_endpoint (some API_KEY) i p db = (.ok (200, setFields p b), updateFirst i p db) := by
  simp only [update_endpoint, run_auth_right, if_pos h, update_berita, hfind]

theorem delete_endpoint_no_key (i : Int) (db : Store) :
    delete_endpoint none i db = (.error 422, db) := rfl

theorem delete_endpoint_wrong_key (k : String) (i : Int) (db : Store) (h : k ≠ API_KEY) :
    delete_endpoint (some k) i db = (.error 401, db) := by
  simp only [delete_endpoint, run_auth_wrong k h]

theorem delete_endpoint_absent_id (i : Int) (db : Store)
    (hfind : db.find? (fun b => b.id == i) = none) :
    delete_endpoint (some API_KEY) i db = (.error 404, db) := by
  simp only [delete_endpoint, run_auth_right, delete_berita, hfind]

theorem delete_endpoint_found (i : Int) (db : Store) (b : Berita)
    (hfind : db.find? (fun b => b.id == i) = some b) :
    delete_endpoint (some API_KEY) i db = (.ok (204, ()), deleteFirst i db) := by
  simp only [delete_endpoint, run_auth_right, delete_berita, hfind]

/-! ### Facts about ids and row lookup -/

theorem mem_id_le_maxId (b : Berita) (db : Store) (h : b ∈ db) : b.id ≤ maxId db := by
  induction db with
  | nil => cases h
  | cons a l ih =>
    have hm : maxId (a :: l) = max a.id (maxId l) := rfl
    rw [hm]
    rcases List.mem_cons.mp h with h1 | h2
    · rw [h1]; exact le_max_left _ _
    · exact le_trans (ih h2) (le_max_right _ _)

theorem mem_id_lt_nextId (b : Berita) (db : Store) (h : b ∈ db) : b.id < nextId db :=
  lt_of_le_of_lt (mem_id_le_maxId b db h) (by unfold nextId; omega)

theorem find?_eq_none_of_id_absent (i : Int) (db : Store) (h : ∀ b ∈ db, b.id ≠ i) :
    db.find? (fun b => b.id == i) = none := by
  rw [List.find?_eq_none]
  intro b hb
  simpa using h b hb

theorem find?_append_of_all_neg (p : Berita → Bool) (l₁ l₂ : Store)
    (h : ∀ b ∈ l₁, p b = false) : (l₁ ++ l₂).find? p = l₂.find? p := by
  induction l₁ with
  | nil => rfl
  | cons a l ih =>
    rw [List.cons_append, List.find?_cons_of_neg]
    · exact ih fun b hb => h b (List.mem_cons_of_mem a hb)
    · simp [h a (List.mem_cons_self a l)]

/-! ### Facts about `updateFirst` and `deleteFirst` -/

theorem updateFirst_map_id (i : Int) (p : BeritaBase) (db : Store) :
    (updateFirst i p db).map (·.id) = db.map (·.id) := by
  induction db with
  | nil => rfl
  | cons a l ih =>
    by_cases hc : (a.id == i) = true
    · simp only [updateFirst, if_pos hc, List.map_cons]
      rfl
    · simp only [updateFirst, if_neg hc, List.map_cons, ih]

theorem mem_updateFirst (i : Int) (p : BeritaBase) (db : Store) (b : Berita)
    (h : b ∈ updateFirst i p db) : b ∈ db ∨ ∃ a, a ∈ db ∧ b = setFields p a := by
  induction db with
  | nil => cases h
  | cons a l ih =>
    by_cases hc : (a.id == i) = true
    · simp only [updateFirst, if_pos hc] at h
      rcases List.mem_cons.mp h with h1 | h2
      · exact Or.inr ⟨a, List.mem_cons_self a l, h1⟩
      · exact Or.inl (List.mem_cons_of_mem a h2)
    · simp only [updateFirst, if_neg hc] at h
      rcases List.mem_cons.mp h with h1 | h2
      · exact Or.inl (h1 ▸ List.mem_cons_self a l)
      · rcases ih h2 with h3 | ⟨c, hc2, he⟩
        · exact Or.inl (List.mem_cons_of_mem a h3)
        · exact Or.inr ⟨c, List.mem_cons_of_mem a hc2, he⟩

theorem deleteFirst_sublist (i : Int) (db : Store) : List.Sublist (deleteFirst i db) db := by
  induction db with
  | nil => exact List.Sublist.refl _
  | cons a l ih =>
    by_cases hc : (a.id == i) = true
    · simp only [deleteFirst, if_pos hc]
      exact List.Sublist.cons a (List.Sublist.refl l)
    · simp only [deleteFirst, if_neg hc]
      exact List.Sublist.cons₂ a ih

theorem deleteFirst_length (i : Int) (db : Store) (b : Berita)
    (h : db.find? (fun x => x.id == i) = some b) :
    (deleteFirst i db).length + 1 = db.length := by
  induction db with
  | nil => simp at h
  | cons a l ih =>
    by_cases hc : (a.id == i) = true
    · simp only [deleteFirst, if_pos hc, List.length_cons]
    · rw [List.find?_cons_of_neg (p := fun x : Berita => x.id == i) _ hc] at h
      simp only [deleteFirst, if_neg hc, List.length_cons]
      have := ih h
      omega

theorem find?_deleteFirst_self_eq_none (i : Int) (db : Store)
    (h : (db.map (·.id)).Nodup) :
    (deleteFirst i db).find? (fun b => b.id == i) = none := by
  induction db with
  | nil => rfl
  | cons a l ih =>
    rw [List.map_cons, List.nodup_cons] at h
    by_cases hc : (a.id == i) = true
    · simp only [deleteFirst, if_pos hc]
      apply find?_eq_none_of_id_absent
      intro b hb he
      have hab : a.id = b.id := (eq_of_beq hc).trans he.symm
      exact h.1 (hab ▸ List.mem_map_of_mem _ hb)
    · simp only [deleteFirst, if_neg hc]
      rw [List.find?_cons_of_neg (p := fun b : Berita => b.id == i) _ hc]
      exact ih h.2

/-! ### How each mutating endpoint can change the store -/

theorem create_endpoint_store_cases (key : Option String) (p : BeritaBase) (db : Store) :
    (create_endpoint key p db).2 = db ∨
      (p.Valid ∧ (create_endpoint key p db).2 = db ++ [(create_berita p db).1]) := by
  match key with
  | none => exact Or.inl rfl
  | some k =>
    by_cases hk : k = API_KEY
    · subst hk
      by_cases hp : p.Valid
      · exact Or.inr ⟨hp, by rw [create_endpoint_valid_body p db hp]; rfl⟩
      · exact Or.inl (by rw [create_endpoint_invalid_body p db hp])
    · exact Or.inl (by rw [create_endpoint_wrong_key k p db hk])

theorem update_endpoint_store_cases (key : Option String) (i : Int) (p : BeritaBase)
    (db : Store) :
    (update_endpoint key i p db).2 = db ∨
      (p.Valid ∧ (update_endpoint key i p db).2 = updateFirst i p db) := by
  match key with
  | none => exact Or.inl rfl
  | some k =>
    by_cases hk : k = API_KEY
    · subst hk
      by_cases hp : p.Valid
      · cases hf : db.find? (fun b => b.id == i) with
        | none => exact Or.inl (by rw [update_endpoint_absent_id i p db hp hf])
        | some b => exact Or.inr ⟨hp, by rw [update_endpoint_found i p db b hp hf]⟩
      · exact Or.inl (by rw [update_endpoint_invalid_body i p db hp])
    · exact Or.inl (by rw [update_endpoint_wrong_key k i p db hk])

theorem delete_endpoint_store_cases (key : Option String) (i : Int) (db : Store) :
    (delete_endpoint key i db).2 = db ∨ (delete_endpoint key i db).2 = deleteFirst i db := by
  match key with
  | none => exact Or.inl rfl
  | some k =>
    by_cases hk : k = API_KEY
    · subst hk
      cases hf : db.find? (fun b => b.id == i) with
      | none => exact Or.inl (by rw [delete_endpoint_absent_id i db hf])
      | some b => exact Or.inr (by rw [delete_endpoint_found i db b hf])
    · exact Or.inl (by rw [delete_endpoint_wrong_key k i db hk])

/-! ### The store invariant maintained by every reachable state -/

/-- Field constraints every stored row satisfies: exactly the pydantic
payload constraints, carried into the table by create/update. -/
def FieldOk (b : Berita) : Prop :=
  1 ≤ b.judul.length ∧ b.judul.length ≤ 255 ∧ 1 ≤ b.isi_berita.length ∧
    b.tanggal.Valid ∧ 1 ≤ b.kategori.length ∧ b.kategori.length ≤ 100

def StoreOk (db : Store) : Prop :=
  (db.map (·.id)).Nodup ∧ ∀ b ∈ db, FieldOk b

theorem nextId_not_mem_ids (db : Store) : nextId db ∉ db.map (·.id) := by
  intro hmem
  rcases List.mem_map.mp hmem with ⟨b, hb, hid⟩
  have := mem_id_lt_nextId b db hb
  omega

theorem storeOk_insert (p : BeritaBase) (db : Store) (hp : p.Valid) (h : StoreOk db) :
    StoreOk (db ++ [(create_berita p db).1]) := by
  constructor
  · rw [List.map_append]
    rw [List.nodup_append]
    refine ⟨h.1, List.nodup_singleton _, ?_⟩
    intro a ha hb
    have ha2 : a = nextId db := by simpa using hb
    exact nextId_not_mem_ids db (ha2 ▸ ha)
  · intro b hb
    rcases List.mem_append.mp hb with h1 | h2
    · exact h.2 b h1
    · have hb2 : b = (create_berita p db).1 := by simpa using h2
      subst hb2
      exact hp

theorem storeOk_updateFirst (i : Int) (p : BeritaBase) (db : Store) (hp : p.Valid)
    (h : StoreOk db) : StoreOk (updateFirst i p db) := by
  constructor
  · rw [updateFirst_map_id]
    exact h.1
  · intro b hb
    rcases mem_updateFirst i p db b hb with h1 | ⟨a, _, he⟩
    · exact h.2 b h1
    · subst he
      exact hp

theorem storeOk_deleteFirst (i : Int) (db : Store) (h : StoreOk db) :
    StoreOk (deleteFirst i db) := by
  constructor
  · exact List.Nodup.sublist (List.Sublist.map _ (deleteFirst_sublist i db)) h.1
  · intro b hb
    exact h.2 b (List.Sublist.subset (deleteFirst_sublist i db) hb)

theorem reachable_storeOk (s : Store) (h : Reachable s) : StoreOk s := by
  induction h with
  | empty => exact ⟨List.nodup_nil, fun b hb => absurd hb (List.not_mem_nil b)⟩
  | create k p s _ ih =>
    rcases create_endpoint_store_cases k p s with he | ⟨hp, he⟩
    · rw [he]; exact ih
    · rw [he]; exact storeOk_insert p s hp ih
  | update k i p s _ ih =>
    rcases update_endpoint_store_cases k i p s with he | ⟨hp, he⟩
    · rw [he]; exact ih
    · rw [he]; exact storeOk_updateFirst i p s hp ih
  | delete k i s _ ih =>
    rcases delete_endpoint_store_cases k i s with he | he
    · rw [he]; exact ih
    · rw [he]; exact storeOk_deleteFirst i s ih

/-! ### Traces of successful creates and deletes (for the list-length law) -/

/-- `Trace n m s`: starting from the empty table, some interleaving of `n`
successful authorised creates and `m` successful authorised deletes ends in
store `s`. -/
inductive Trace : Nat → Nat → Store → Prop where
  | nil : Trace 0 0 []
  | create (n m : Nat) (s : Store) (p : BeritaBase) :
      Trace n m s → p.Valid → Trace (n + 1) m (create_endpoint (some API_KEY) p s).2
  | delete (n m : Nat) (s : Store) (i : Int) (b : Berita) :
      Trace n m s → s.find? (fun x => x.id == i) = some b →
      Trace n (m + 1) (delete_endpoint (some API_KEY) i s).2

theorem trace_length (n m : Nat) (s : Store) (h : Trace n m s) : s.length + m = n := by
  induction h with
  | nil => rfl
  | create n m s p _ hp ih =>
    have hlen : ((create_endpoint (some API_KEY) p s).2).length = s.length + 1 := by
      rw [create_endpoint_valid_body p s hp]
      simp [create_berita]
    omega
  | delete n m s i b _ hf ih =>
    have hlen : ((delete_endpoint (some API_KEY) i s).2).length + 1 = s.length := by
      rw [delete_endpoint_found i s b hf]
      exact deleteFirst_length i s b hf
    omega

/-! ### Concrete sample data used by witnesses and counterexamples -/

def row1 : Berita := ⟨1, "A", "b", d0, "c"⟩

def s1 : Store := (create_endpoint (some API_KEY) p0 []).2

/-- Payload with an empty `judul`, violating `min_length=1`. -/
def pbad : BeritaBase := ⟨"", "b", d0, "c"⟩

/-- Payload whose three string fields are a single space each. -/
def pws : BeritaBase := ⟨" ", " ", d0, " "⟩

theorem ne_empty_of_one_le_length (t : String) (h : 1 ≤ t.length) : t ≠ "" := by
  intro he
  subst he
  exact absurd h (by decide)

/-! ### The claims -/

/-- Claim C1, counterexample: a mutating request with the `X-API-Key` header
absent is rejected with HTTP 422 (FastAPI request-validation failure for the
missing required header), not with HTTP 401 as the claim states — here POST
`/berita` with a fully valid payload and no key on the empty store. -/
theorem missing_key_rejected_422_not_401 :
    create_endpoint none p0 [] = (.error 422, []) ∧
      create_endpoint none p0 [] ≠ (.error 401, []) ∧ (422 : Nat) ≠ 401 :=
  ⟨rfl,
   fun h => absurd (Except.error.inj (congrArg Prod.fst h)) (by decide),
   by decide⟩

/-- Claim C1, amended: on each of the three mutating endpoints, a present
`X-API-Key` whose value differs from the static secret is rejected with
HTTP 401 before any payload validation (the payload is arbitrary here) and
before any store access (the store is returned unchanged); an absent header
is rejected with HTTP 422, likewise with no store access. -/
theorem auth_rejected_before_validation_and_store (k : String) (p : BeritaBase) (i : Int)
    (s : Store) (hk : k ≠ API_KEY) :
    create_endpoint (some k) p s = (.error 401, s) ∧
    update_endpoint (some k) i p s = (.error 401, s) ∧
    delete_endpoint (some k) i s = (.error 401, s) ∧
    create_endpoint none p s = (.error 422, s) ∧
    update_endpoint none i p s = (.error 422, s) ∧
    delete_endpoint none i s = (.error 422, s) :=
  ⟨create_endpoint_wrong_key k p s hk, update_endpoint_wrong_key k i p s hk,
   delete_endpoint_wrong_key k i s hk, rfl, rfl, rfl⟩

/-- Witness for the amended C1 at the concrete key `"letmein"`, payload `pbad`
(invalid, showing validation is not reached), id 1 and store `[row1]`. -/
theorem auth_rejected_witness :
    "letmein" ≠ API_KEY ∧
    (create_endpoint (some "letmein") pbad [row1] = (.error 401, [row1]) ∧
     update_endpoint (some "letmein") 1 pbad [row1] = (.error 401, [row1]) ∧
     delete_endpoint (some "letmein") 1 [row1] = (.error 401, [row1]) ∧
     create_endpoint none pbad [row1] = (.error 422, [row1]) ∧
     update_endpoint none 1 pbad [row1] = (.error 422, [row1]) ∧
     delete_endpoint none 1 [row1] = (.error 422, [row1])) :=
  ⟨by decide, auth_rejected_before_validation_and_store "letmein" pbad 1 [row1] (by decide)⟩

theorem get_after_insert (p : BeritaBase) (s : Store) :
    get_endpoint (nextId s) (s ++ [(create_berita p s).1]) = .ok (200, (create_berita p s).1) := by
  have hall : ∀ b ∈ s, ((fun b : Berita => b.id == nextId s) b) = false := by
    intro b hb
    have := mem_id_lt_nextId b s hb
    simp only [beq_eq_false_iff_ne]
    omega
  have hfind : (s ++ [(create_berita p s).1]).find? (fun b => b.id == nextId s) =
      some (create_berita p s).1 := by
    rw [find?_append_of_all_neg _ s _ hall, List.find?_cons_of_pos]
    exact beq_self_eq_true _
  simp only [get_endpoint, get_berita, hfind]

/-- Claim C2: for every valid payload and correct secret, create followed by
get on the assigned id returns HTTP 200 with exactly the created record; its
four non-id fields equal the payload's and its id is the one the store
assigned (`nextId`). -/
theorem create_then_get_roundtrip (p : BeritaBase) (s : Store) (hp : p.Valid) :
    (create_endpoint (some API_KEY) p s).1 = .ok (201, (create_berita p s).1) ∧
    get_endpoint ((create_berita p s).1).id (create_endpoint (some API_KEY) p s).2 =
      .ok (200, (create_berita p s).1) ∧
    ((create_berita p s).1).judul = p.judul ∧
    ((create_berita p s).1).isi_berita = p.isi_berita ∧
    ((create_berita p s).1).tanggal = p.tanggal ∧
    ((create_berita p s).1).kategori = p.kategori ∧
    ((create_berita p s).1).id = nextId s := by
  refine ⟨?_, ?_, rfl, rfl, rfl, rfl, rfl⟩
  · rw [create_endpoint_valid_body p s hp]
  · rw [create_endpoint_valid_body p s hp]
    exact get_after_insert p s

/-- Witness for C2 at payload `p0` on the empty store. -/
theorem create_then_get_roundtrip_witness :
    p0.Valid ∧
    ((create_endpoint (some API_KEY) p0 []).1 = .ok (201, (create_berita p0 []).1) ∧
     get_endpoint ((create_berita p0 []).1).id (create_endpoint (some API_KEY) p0 []).2 =
       .ok (200, (create_berita p0 []).1) ∧
     ((create_berita p0 []).1).judul = p0.judul ∧
     ((create_berita p0 []).1).isi_berita = p0.isi_berita ∧
     ((create_berita p0 []).1).tanggal = p0.tanggal ∧
     ((create_berita p0 []).1).kategori = p0.kategori ∧
     ((create_berita p0 []).1).id = nextId []) :=
  ⟨by decide, create_then_get_roundtrip p0 [] (by decide)⟩

/-- Claim C3, counterexample: a create request whose payload violates the
schema (empty `judul`) but whose `X-API-Key` is present and wrong is rejected
with HTTP 401 — the auth dependency runs before body validation — not with
the HTTP 422 the claim promises for every invalid-payload request. -/
theorem wrong_key_invalid_body_rejected_401_not_422 :
    ¬ pbad.Valid ∧
    create_endpoint (some "letmein") pbad [] = (.error 401, []) ∧
    create_endpoint (some "letmein") pbad [] ≠ (.error 422, []) ∧ (401 : Nat) ≠ 422 :=
  ⟨by decide, rfl,
   fun h => absurd (Except.error.inj (congrArg Prod.fst h)) (by decide),
   by decide⟩

/-- Claim C3, amended: a create or update request whose payload violates the
schema constraints always leaves the store completely unchanged, whatever key
is sent; it is rejected with a structured validation error HTTP 422 whenever
the access check does not already reject it — that is, when the secret is
correct, and also when the header is absent (the missing header is itself a
422 validation failure); when the header is present with a wrong value the
rejection is HTTP 401 instead. -/
theorem invalid_body_rejected_store_unchanged (k : Option String) (q : String) (i : Int)
    (p : BeritaBase) (s : Store) (hp : ¬ p.Valid) :
    (create_endpoint k p s).2 = s ∧
    (update_endpoint k i p s).2 = s ∧
    (create_endpoint (some API_KEY) p s).1 = .error 422 ∧
    (update_endpoint (some API_KEY) i p s).1 = .error 422 ∧
    (create_endpoint none p s).1 = .error 422 ∧
    (update_endpoint none i p s).1 = .error 422 ∧
    (q ≠ API_KEY →
      (create_endpoint (some q) p s).1 = .error 401 ∧
      (update_endpoint (some q) i p s).1 = .error 401) := by
  refine ⟨?_, ?_, ?_, ?_, rfl, rfl, ?_⟩
  · rcases create_endpoint_store_cases k p s with h | ⟨hv, _⟩
    · exact h
    · exact absurd hv hp
  · rcases update_endpoint_store_cases k i p s with h | ⟨hv, _⟩
    · exact h
    · exact absurd hv hp
  · rw [create_endpoint_invalid_body p s hp]
  · rw [update_endpoint_invalid_body i p s hp]
  · intro hq
    exact ⟨by rw [create_endpoint_wrong_key q p s hq],
           by rw [update_endpoint_wrong_key q i p s hq]⟩

/-- Witness for the amended C3 at the invalid payload `pbad`, key absent or
`"letmein"`, id 1, store `[row1]`. -/
theorem invalid_body_rejected_witness :
    ¬ pbad.Valid ∧
    ((create_endpoint none pbad [row1]).2 = [row1] ∧
     (update_endpoint none 1 pbad [row1]).2 = [row1] ∧
     (create_endpoint (some API_KEY) pbad [row1]).1 = .error 422 ∧
     (update_endpoint (some API_KEY) 1 pbad [row1]).1 = .error 422 ∧
     (create_endpoint none pbad [row1]).1 = .error 422 ∧
     (update_endpoint none 1 pbad [row1]).1 = .error 422 ∧
     ("letmein" ≠ API_KEY →
       (create_endpoint (some "letmein") pbad [row1]).1 = .error 401 ∧
       (update_endpoint (some "letmein") 1 pbad [row1]).1 = .error 401)) :=
  ⟨by decide, invalid_body_rejected_store_unchanged none "letmein" 1 pbad [row1] (by decide)⟩

/-- Claim C4: for an id carried by no stored row, GET returns HTTP 404, and an
authorised PUT with a valid payload and an authorised DELETE each return
HTTP 404 leaving the store exactly as it was. -/
theorem absent_id_not_found (i : Int) (p : BeritaBase) (s : Store)
    (habs : ∀ b ∈ s, b.id ≠ i) (hp : p.Valid) :
    get_endpoint i s = .error 404 ∧
    update_endpoint (some API_KEY) i p s = (.error 404, s) ∧
    delete_endpoint (some API_KEY) i s = (.error 404, s) := by
  have hfind := find?_eq_none_of_id_absent i s habs
  refine ⟨?_, ?_, ?_⟩
  · simp only [get_endpoint, get_berita, hfind]
  · rw [update_endpoint_absent_id i p s hp hfind]
  · rw [delete_endpoint_absent_id i s hfind]

/-- Witness for C4 at the absent id 5 on the one-row store `[row1]`. -/
theorem absent_id_not_found_witness :
    (∀ b ∈ [row1], b.id ≠ 5) ∧ p0.Valid ∧
    (get_endpoint 5 [row1] = .error 404 ∧
     update_endpoint (some API_KEY) 5 p0 [row1] = (.error 404, [row1]) ∧
     delete_endpoint (some API_KEY) 5 [row1] = (.error 404, [row1])) :=
  ⟨by decide, by decide, absent_id_not_found 5 p0 [row1] (by decide) (by decide)⟩

/-- Claim C5: a mutating endpoint invoked without the correct secret — header
absent, or any value other than the secret — leaves the store exactly as it
was, for every store, payload and id. -/
theorem no_correct_key_no_mutation (k : Option String) (p : BeritaBase) (i : Int)
    (s : Store) (hk : k ≠ some API_KEY) :
    (create_endpoint k p s).2 = s ∧
    (update_endpoint k i p s).2 = s ∧
    (delete_endpoint k i s).2 = s := by
  match k with
  | none => exact ⟨rfl, rfl, rfl⟩
  | some q =>
    have hq : q ≠ API_KEY := fun he => hk (by rw [he])
    exact ⟨by rw [create_endpoint_wrong_key q p s hq],
           by rw [update_endpoint_wrong_key q i p s hq],
           by rw [delete_endpoint_wrong_key q i s hq]⟩

/-- Witness for C5 at the wrong key `"letmein"`, valid payload `p0`, the
existing id 1 and store `[row1]`. -/
theorem no_correct_key_no_mutation_witness :
    some "letmein" ≠ some API_KEY ∧
    ((create_endpoint (some "letmein") p0 [row1]).2 = [row1] ∧
     (update_endpoint (some "letmein") 1 p0 [row1]).2 = [row1] ∧
     (delete_endpoint (some "letmein") 1 [row1]).2 = [row1]) :=
  ⟨by decide, no_correct_key_no_mutation (some "letmein") p0 1 [row1] (by decide)⟩

/-- Claim C6: in every reachable store state the ids of the rows are pairwise
distinct; every stored row keeps all string fields non-empty; an update —
authorised or not, found or not — never changes any row's id (the row ids
after the call are exactly the row ids before it); and the id of a created
row is `nextId` of the store, a function of the store alone, never taken
from the caller's payload (which carries no id at all). -/
theorem store_invariants (s : Store) (b : Berita) (k : Option String) (p : BeritaBase)
    (i : Int) (hs : Reachable s) (hb : b ∈ s) :
    (s.map (·.id)).Nodup ∧
    (b.judul ≠ "" ∧ b.isi_berita ≠ "" ∧ b.kategori ≠ "") ∧
    ((update_endpoint k i p s).2).map (·.id) = s.map (·.id) ∧
    ((create_berita p s).1).id = nextId s := by
  have hok := reachable_storeOk s hs
  have hf := hok.2 b hb
  refine ⟨hok.1, ⟨?_, ?_, ?_⟩, ?_, rfl⟩
  · exact ne_empty_of_one_le_length _ hf.1
  · exact ne_empty_of_one_le_length _ hf.2.2.1
  · exact ne_empty_of_one_le_length _ hf.2.2.2.2.1
  · rcases update_endpoint_store_cases k i p s with he | ⟨_, he⟩
    · rw [he]
    · rw [he, updateFirst_map_id]

/-- Witness for C6 on the reachable one-row store `s1` (one successful create
from empty), its row, an arbitrary key, payload and id. -/
theorem store_invariants_witness :
    Reachable s1 ∧ row1 ∈ s1 ∧
    ((s1.map (·.id)).Nodup ∧
     (row1.judul ≠ "" ∧ row1.isi_berita ≠ "" ∧ row1.kategori ≠ "") ∧
     ((update_endpoint (some "letmein") 2 pws s1).2).map (·.id) = s1.map (·.id) ∧
     ((create_berita pws s1).1).id = nextId s1) :=
  ⟨Reachable.create (some API_KEY) p0 [] Reachable.empty, by decide,
   store_invariants s1 row1 (some "letmein") pws 2
     (Reachable.create (some API_KEY) p0 [] Reachable.empty) (by decide)⟩

/-- Claim C7: on a reachable store, a successful authorised DELETE of an id
followed by GET of that same id yields HTTP 404. -/
theorem delete_then_get_not_found (i : Int) (s : Store) (hs : Reachable s)
    (hdel : (delete_endpoint (some API_KEY) i s).1 = .ok (204, ())) :
    get_endpoint i (delete_endpoint (some API_KEY) i s).2 = .error 404 := by
  cases hf : s.find? (fun x => x.id == i) with
  | none =>
    rw [delete_endpoint_absent_id i s hf] at hdel
    exact absurd hdel (by simp)
  | some b =>
    rw [delete_endpoint_found i s b hf]
    have hnone := find?_deleteFirst_self_eq_none i s (reachable_storeOk s hs).1
    simp only [get_endpoint, get_berita, hnone]

/-- Witness for C7: deleting id 1 from the reachable one-row store `s1`
succeeds with HTTP 204, and the subsequent GET yields 404. -/
theorem delete_then_get_not_found_witness :
    (delete_endpoint (some API_KEY) 1 s1).1 = .ok (204, ()) ∧
    get_endpoint 1 (delete_endpoint (some API_KEY) 1 s1).2 = .error 404 :=
  ⟨rfl, delete_then_get_not_found 1 s1
    (Reachable.create (some API_KEY) p0 [] Reachable.empty) rfl⟩

/-- Claim C8: starting from the empty store, after any interleaving of `n`
successful creates and `m` successful deletes, the list endpoint returns
exactly `n - m` records (and `m` never exceeds `n`). -/
theorem list_length_after_trace (n m : Nat) (s : Store) (h : Trace n m s) :
    (list_berita s).length = n - m ∧ m ≤ n := by
  have := trace_length n m s h
  unfold list_berita
  omega

/-- Witness for C8: one successful create and no deletes from the empty store
leaves exactly one record. -/
theorem list_length_after_trace_witness :
    Trace 1 0 ((create_endpoint (some API_KEY) p0 []).2) ∧
    ((list_berita ((create_endpoint (some API_KEY) p0 []).2)).length = 1 - 0 ∧ 0 ≤ 1) :=
  ⟨Trace.create 0 0 [] p0 Trace.nil (by decide),
   list_length_after_trace 1 0 _ (Trace.create 0 0 [] p0 Trace.nil (by decide))⟩

/-- Claim C9: on the empty store the list endpoint succeeds with HTTP 200 and
an empty array; it signals no error of any kind. -/
theorem list_empty_store_ok :
    list_endpoint ([] : Store) = .ok (200, ([] : List Berita)) := rfl

/-- Claim C10: length constraints count raw characters with no trimming: the
payload whose `judul`, `isi_berita` and `kategori` are each a single space
passes validation, and an authorised create stores the record with exactly
those whitespace-only fields. -/
theorem whitespace_only_fields_accepted :
    pws.Valid ∧
    create_endpoint (some API_KEY) pws [] =
      (.ok (201, ⟨1, " ", " ", d0, " "⟩), [⟨1, " ", " ", d0, " "⟩]) :=
  ⟨by decide, rfl⟩
